import Mathlib

/-!
Verification development for the Upwork Wayland screenshot bridge
(`src/screenshot.py`): a shallow embedding of the backend-selection
engine, the D-Bus screenshot facade and the idle-monitor interface,
with theorems settling the specification's claims.

Conventions of the embedding:
* Python strings are `String`; POSIX path helpers (`os.path.isabs`,
  `os.path.join`) are translated to Lean functions of the same
  behaviour for string arguments.
* OS facts consumed by the code (environment variables, `os.path.isdir`,
  the home directory, subprocess outcomes, `mkdir`) are abstract fields of
  an environment structure: the code treats them as opaque queries.
* Fallible Python calls (which may raise) are `Except String _`; a
  Python `try ... except Exception` around a call is a `match` on that
  value sending `.error` to the handler's result.
* Timestamps (`datetime.datetime.utcnow()`) are microsecond counts as
  `Nat`; a timedelta converted by `int(delta.total_seconds() * 1000)` is
  the microsecond difference divided by `1000` (floor), exact arithmetic
  standing in for the float computation.
-/

/-! ### POSIX path helpers (`os.path.isabs`, `os.path.join`) -/

/-- POSIX `os.path.isabs`: the path starts with the separator
`'/'` (`s.startswith(sep)` for the one-character separator, checked on
the character data). -/
def isabs (p : String) : Bool :=
  match p.data with
  | [] => false
  | c :: _ => c = '/'

/-- POSIX endswith check against the one-character separator, checked
on the character data (an empty path does not end with it). -/
def endsWithSlash (p : String) : Bool :=
  p.data.getLastD ' ' = '/'

/-- Two-argument `os.path.join` for POSIX: an absolute second component
replaces the first; otherwise the separator is inserted unless the first
component is empty or already ends with it. -/
def pathJoin (a b : String) : String :=
  if isabs b then b
  else if a = "" ∨ endsWithSlash a = true then a ++ b
  else a ++ "/" ++ b

/-! ### Filename resolution (`ScreenshotInterface._resolve_filename`) -/

/-- The OS facts `_resolve_filename` consumes: the optional
`XDG_PICTURES_DIR` environment variable (`none` when unset), the
`os.path.isdir` query, and the home directory `os.path.expanduser` with a
tilde yields. All three are total queries in Python for string input. -/
structure ResolveEnv where
  xdg_pictures_dir : Option String
  isdir : String → Bool
  home : String

/-- Translation of `ScreenshotInterface._resolve_filename`: absolute filenames pass
through; otherwise the filename goes under `XDG_PICTURES_DIR` when that
variable is set, non-empty (Python truthiness) and an existing directory,
and under the home directory otherwise. -/
def resolve_filename (env : ResolveEnv) (filename : String) : String :=
  if isabs filename then filename
  else
    match env.xdg_pictures_dir with
    | some d =>
        if d ≠ "" ∧ env.isdir d = true then pathJoin d filename
        else pathJoin env.home filename
    | none => pathJoin env.home filename

/-! ### The screenshot facade (`ScreenshotInterface`)

The facade delegates to `ScreenshotManager.capture_full_sync` /
`capture_area_sync`; those calls run external processes and may raise
(for instance the `mkdir` preceding each backend's `try` block), so a
facade method takes the manager's behaviour as a function returning
`Except String Bool`. The method body mirrors the source: the filename
is resolved before the `try` block, the capture call sits inside it, and
the bare exception handler returns the failure pair. -/

/-- Method `ScreenshotInterface.Screenshot`. -/
def Screenshot (env : ResolveEnv)
    (captureFull : String → Bool → Except String Bool)
    (include_cursor _flash : Bool) (filename : String) :
    Except String (Bool × String) :=
  let resolved := resolve_filename env filename
  match captureFull resolved include_cursor with
  | .ok true => .ok (true, resolved)
  | .ok false => .ok (false, "")
  | .error _ => .ok (false, "")

/-- Method `ScreenshotInterface.ScreenshotArea`. -/
def ScreenshotArea (env : ResolveEnv)
    (captureArea : String → Int → Int → Int → Int → Except String Bool)
    (x y width height : Int) (_flash : Bool) (filename : String) :
    Except String (Bool × String) :=
  let resolved := resolve_filename env filename
  match captureArea resolved x y width height with
  | .ok true => .ok (true, resolved)
  | .ok false => .ok (false, "")
  | .error _ => .ok (false, "")

/-- Method `ScreenshotInterface.ScreenshotWindow`: the source delegates to
`Screenshot` with the same cursor/flash/filename arguments, dropping
`include_frame`. -/
def ScreenshotWindow (env : ResolveEnv)
    (captureFull : String → Bool → Except String Bool)
    (_include_frame include_cursor flash : Bool) (filename : String) :
    Except String (Bool × String) :=
  Screenshot env captureFull include_cursor flash filename

/-! ### The backend selector (`ScreenshotManager`)

For the selection loop a retained backend is abstracted to its name and
the boolean outcome each of its two capture methods would report on the
current request (the loop only ever branches on that boolean). The
manager's loops are instrumented with a trace: the list of backend names
invoked, in order — an empty trace means no external process is spawned. -/

/-- A retained backend as the manager's loops see it. -/
structure ToolB where
  name : String
  captureFull : String → Bool → Bool
  captureArea : String → Int → Int → Int → Int → Bool

/-- Loop `ScreenshotManager.capture_full_sync`: try backends in order, return
on the first success, fail when all fail. The second component is the
trace of invoked backends. -/
def capture_full_sync (filename : String) (include_cursor : Bool) :
    List ToolB → Bool × List String
  | [] => (false, [])
  | b :: rest =>
    if b.captureFull filename include_cursor then (true, [b.name])
    else
      let r := capture_full_sync filename include_cursor rest
      (r.1, b.name :: r.2)

/-- Loop `ScreenshotManager.capture_area_sync`: same loop over
`capture_area_sync` of each backend. -/
def capture_area_sync (filename : String) (x y width height : Int) :
    List ToolB → Bool × List String
  | [] => (false, [])
  | b :: rest =>
    if b.captureArea filename x y width height then (true, [b.name])
    else
      let r := capture_area_sync filename x y width height rest
      (r.1, b.name :: r.2)

/-! ### The gnome-screenshot backend (`GnomeScreenshotBackend`)

The OS-level effects a backend's capture performs are abstracted into a
record: the `Path(filename).parent.mkdir(parents=True, exist_ok=True)`
call (which sits before the `try` block and may raise), the
`subprocess.run` invocation (completing with an exit code, expiring its
timeout, or raising), and the final `Path(filename).exists()` check. -/

/-- Outcome of a `subprocess.run` call bounded by the fixed timeout. -/
inductive RunOutcome where
  | completed (returncode : Int)
  | timedOut
  | raised
deriving DecidableEq

/-- The OS effects consumed by a backend capture, keyed by the command
line for the subprocess and by the target filename for the other two. -/
structure SysEnv where
  mkdirParentOf : String → Except String Unit
  run : List String → RunOutcome
  fileExists : String → Bool

/-- Translation of `GnomeScreenshotBackend.capture_full_sync`: ensure the parent
directory exists (outside the `try`: a raise propagates), then inside the
`try` run `gnome-screenshot -f filename` (plus `-p` when the cursor is
included); nonzero exit, timeout, a raise, or a missing output file all
yield `False`. -/
def gnome_capture_full_sync (sys : SysEnv) (binary filename : String)
    (include_cursor : Bool) : Except String Bool := do
  let _ ← sys.mkdirParentOf filename
  let cmd := [binary, "-f", filename] ++ (if include_cursor then ["-p"] else [])
  pure (match sys.run cmd with
    | .completed rc => if rc ≠ 0 then false else sys.fileExists filename
    | .timedOut => false
    | .raised => false)

/-- Translation of `GnomeScreenshotBackend.capture_area_sync`: non-interactive area
capture is unsupported, so the source delegates to
`capture_full_sync(filename)` with the cursor flag at its default
`False`, ignoring the rectangle. -/
def gnome_capture_area_sync (sys : SysEnv) (binary filename : String)
    (_x _y _width _height : Int) : Except String Bool :=
  gnome_capture_full_sync sys binary filename false

/-! ### The idle monitor (`IdleMonitorInterface`)

The interface's mutable fields become a state record; the D-Bus methods
become a step function on it. Each call of a method also carries the
current clock reading (`datetime.datetime.utcnow()`, in microseconds)
when the method reads or writes it. The watch dictionary is an
association list with Python-dict semantics (in-place update of an
existing key, append of a fresh one, deletion guarded by a membership
check). The `WatchFired` signal the class declares shows up as the list
of ids a step emits it for. -/

/-- A recorded watch: the idle-threshold kind with its millisecond
interval, or the user-active kind. -/
inductive Watch where
  | idle (interval : Nat)
  | active
deriving DecidableEq

/-- Python-dict insertion on an association list: update the existing
entry in place, else append. -/
def dictInsert (k : Nat) (v : Watch) : List (Nat × Watch) → List (Nat × Watch)
  | [] => [(k, v)]
  | (k', v') :: rest =>
    if k' = k then (k', v) :: rest else (k', v') :: dictInsert k v rest

/-- Python-dict deletion on an association list: drop the entry with the
given key. -/
def dictRemove (k : Nat) : List (Nat × Watch) → List (Nat × Watch)
  | [] => []
  | (k', v') :: rest =>
    if k' = k then rest else (k', v') :: dictRemove k rest

/-- Python-dict membership (`k in d`). -/
def dictHasKey (k : Nat) : List (Nat × Watch) → Bool
  | [] => false
  | (k', _) :: rest => k' = k || dictHasKey k rest

/-- The mutable fields of `IdleMonitorInterface`: `last_active` (set to
the current time in `__init__`), `_watch_id_counter` (starts at `1`),
`_watches`, and the pair `_real_monitor` (presence of the proxy object)
and `_use_real_monitor` set together by `try_connect_real_monitor` on
success. -/
structure IMState where
  last_active : Nat
  watch_id_counter : Nat
  watches : List (Nat × Watch)
  use_real_monitor : Bool
  has_real_monitor : Bool
deriving DecidableEq

/-- Constructor `IdleMonitorInterface.__init__` at construction time `now`. -/
def imInit (now : Nat) : IMState :=
  { last_active := now
    watch_id_counter := 1
    watches := []
    use_real_monitor := false
    has_real_monitor := false }

/-- Method `IdleMonitorInterface.GetIdletime` read at clock `now`: when the
real-monitor branch is taken the source returns the constant `0`
(its comment notes real querying would need async handling); otherwise
`int((now - last_active).total_seconds() * 1000)`, here the microsecond
difference floor-divided by `1000`. -/
def GetIdletime (s : IMState) (now : Nat) : Nat :=
  if s.use_real_monitor && s.has_real_monitor then 0
  else (now - s.last_active) / 1000

/-- One inbound method call on the idle-monitor interface, together with
the clock reading the handler would take when it consults the clock. -/
inductive IMOp where
  | getIdletime (now : Nat)
  | addIdleWatch (interval : Nat)
  | addUserActiveWatch
  | removeWatch (id : Nat)
  | resetIdletime (now : Nat)
deriving DecidableEq

/-- A method's returned value. -/
inductive IMRet where
  | idleMs (ms : Nat)
  | watchId (id : Nat)
  | unit
deriving DecidableEq

/-- One method call: the new state, the returned value, and the ids for
which the handler emits the `WatchFired` signal (no handler in the
source ever does). -/
def imStep (s : IMState) : IMOp → IMState × IMRet × List Nat
  | .getIdletime now => (s, .idleMs (GetIdletime s now), [])
  | .addIdleWatch interval =>
      ({ s with
          watch_id_counter := s.watch_id_counter + 1
          watches := dictInsert s.watch_id_counter (.idle interval) s.watches },
        .watchId s.watch_id_counter, [])
  | .addUserActiveWatch =>
      ({ s with
          watch_id_counter := s.watch_id_counter + 1
          watches := dictInsert s.watch_id_counter .active s.watches },
        .watchId s.watch_id_counter, [])
  | .removeWatch id =>
      ({ s with
          watches :=
            if dictHasKey id s.watches then dictRemove id s.watches
            else s.watches },
        .unit, [])
  | .resetIdletime now => ({ s with last_active := now }, .unit, [])

/-- A whole run of method calls: the final state, the watch ids the add
methods returned (in call order), and every `WatchFired` emission. -/
def imRun (s : IMState) : List IMOp → IMState × List Nat × List Nat
  | [] => (s, [], [])
  | op :: ops =>
      let st := imStep s op
      let rest := imRun st.1 ops
      (rest.1,
       (match st.2.1 with
        | .watchId i => i :: rest.2.1
        | _ => rest.2.1),
       st.2.2 ++ rest.2.2)

/-! ## Claims -/

/-- C7: an absolute filename resolves to itself; a relative one goes
under the configured pictures directory when that directory is set,
non-empty and exists, and under the home directory in every other
case. -/
theorem c7_resolve_filename (env : ResolveEnv) (fn : String) :
    (isabs fn = true → resolve_filename env fn = fn) ∧
    (∀ d, isabs fn = false → env.xdg_pictures_dir = some d → d ≠ "" →
      env.isdir d = true → resolve_filename env fn = pathJoin d fn) ∧
    (isabs fn = false →
      (∀ d, env.xdg_pictures_dir = some d → d = "" ∨ env.isdir d = false) →
      resolve_filename env fn = pathJoin env.home fn) := by
  refine ⟨?_, ?_, ?_⟩
  · intro h
    simp [resolve_filename, h]
  · intro d h hd hne hdir
    simp [resolve_filename, h, hd, hne, hdir]
  · intro h hall
    unfold resolve_filename
    rw [h]
    cases hx : env.xdg_pictures_dir with
    | none => simp
    | some d =>
      rcases hall d hx with h1 | h1 <;> simp [h1]

/-- C7 witness: with no pictures directory configured and home
`/home/user`, the relative name `shot.png` resolves to
`/home/user/shot.png`, and the absolute name `/tmp/x.png` resolves
unchanged. -/
theorem c7_resolve_filename_witness :
    resolve_filename ⟨none, fun _ => false, "/home/user"⟩ "shot.png"
        = "/home/user/shot.png" ∧
    resolve_filename ⟨none, fun _ => false, "/home/user"⟩ "/tmp/x.png"
        = "/tmp/x.png" := by
  constructor
  · have h := (c7_resolve_filename ⟨none, fun _ => false, "/home/user"⟩
      "shot.png").2.2 (by decide) (by intro d hd; cases hd)
    rw [h]
    decide
  · exact (c7_resolve_filename ⟨none, fun _ => false, "/home/user"⟩
      "/tmp/x.png").1 (by decide)

/-- C1: for every environment, every manager behaviour (including one
that raises) and every argument list, `Screenshot` and `ScreenshotArea`
return normally (never propagate an exception), and whenever the capture
call raises, the returned value is the failure shape `(false, "")`. -/
theorem c1_facade_catches (env : ResolveEnv)
    (cf : String → Bool → Except String Bool)
    (ca : String → Int → Int → Int → Int → Except String Bool)
    (ic fl : Bool) (fn : String) (x y w h : Int) :
    (∃ r, Screenshot env cf ic fl fn = .ok r) ∧
    (∀ e, cf (resolve_filename env fn) ic = .error e →
      Screenshot env cf ic fl fn = .ok (false, "")) ∧
    (∃ r, ScreenshotArea env ca x y w h fl fn = .ok r) ∧
    (∀ e, ca (resolve_filename env fn) x y w h = .error e →
      ScreenshotArea env ca x y w h fl fn = .ok (false, "")) := by
  refine ⟨?_, ?_, ?_, ?_⟩
  · rcases hcf : cf (resolve_filename env fn) ic with e | b
    · exact ⟨(false, ""), by simp [Screenshot, hcf]⟩
    · cases b
      · exact ⟨(false, ""), by simp [Screenshot, hcf]⟩
      · exact ⟨(true, resolve_filename env fn), by simp [Screenshot, hcf]⟩
  · intro e he
    simp [Screenshot, he]
  · rcases hca : ca (resolve_filename env fn) x y w h with e | b
    · exact ⟨(false, ""), by simp [ScreenshotArea, hca]⟩
    · cases b
      · exact ⟨(false, ""), by simp [ScreenshotArea, hca]⟩
      · exact ⟨(true, resolve_filename env fn), by simp [ScreenshotArea, hca]⟩
  · intro e he
    simp [ScreenshotArea, he]

/-- C1 witness: with a manager whose capture calls raise, both facade
methods return `(false, "")` normally. -/
theorem c1_facade_catches_witness :
    Screenshot ⟨none, fun _ => false, "/home/user"⟩
        (fun _ _ => .error "boom") false false "a.png" = .ok (false, "") ∧
    ScreenshotArea ⟨none, fun _ => false, "/home/user"⟩
        (fun _ _ _ _ _ => .error "boom") 0 0 1 1 false "a.png"
        = .ok (false, "") := by
  constructor
  · exact (c1_facade_catches ⟨none, fun _ => false, "/home/user"⟩
      (fun _ _ => .error "boom") (fun _ _ _ _ _ => .error "boom")
      false false "a.png" 0 0 1 1).2.1 "boom" rfl
  · exact (c1_facade_catches ⟨none, fun _ => false, "/home/user"⟩
      (fun _ _ => .error "boom") (fun _ _ _ _ _ => .error "boom")
      false false "a.png" 0 0 1 1).2.2.2 "boom" rfl

/-- C8: `ScreenshotWindow` returns exactly what `Screenshot` returns on
the same cursor/flash/filename arguments, and its result does not depend
on `include_frame`. -/
theorem c8_window_delegates (env : ResolveEnv)
    (cf : String → Bool → Except String Bool)
    (f1 f2 ic fl : Bool) (fn : String) :
    ScreenshotWindow env cf f1 ic fl fn = Screenshot env cf ic fl fn ∧
    ScreenshotWindow env cf f1 ic fl fn = ScreenshotWindow env cf f2 ic fl fn :=
  ⟨rfl, rfl⟩

/-- C9: for every rectangle — in particular one with non-positive width
or height — the gnome-screenshot backend's area capture equals its own
full-screen capture (cursor flag at its default `false`), and when the
directory creation succeeds it returns a boolean normally instead of
failing or raising. -/
theorem c9_gnome_area_fallback (sys : SysEnv) (b fn : String) (x y w h : Int) :
    gnome_capture_area_sync sys b fn x y w h
        = gnome_capture_full_sync sys b fn false ∧
    (sys.mkdirParentOf fn = .ok () → ∃ r : Bool,
      gnome_capture_area_sync sys b fn x y w h = .ok r) := by
  refine ⟨rfl, ?_⟩
  intro hm
  unfold gnome_capture_area_sync gnome_capture_full_sync
  rw [hm]
  exact ⟨_, rfl⟩

/-- C9 witness: a rectangle with non-positive width, on an OS where the
directory creation succeeds and the tool exits cleanly, yields a normal
boolean result. -/
theorem c9_gnome_area_fallback_witness :
    ∃ r : Bool,
      gnome_capture_area_sync
        ⟨fun _ => .ok (), fun _ => .completed 0, fun _ => true⟩
        "gnome-screenshot" "a.png" 0 0 (-1) 0 = .ok r :=
  (c9_gnome_area_fallback
    ⟨fun _ => .ok (), fun _ => .completed 0, fun _ => true⟩
    "gnome-screenshot" "a.png" 0 0 (-1) 0).2 rfl

/-- C2 (code bug): when the interface is connected to the real GNOME
idle monitor (`_use_real_monitor` set and a proxy present),
`GetIdletime` returns the constant `0` for every clock reading —
it never queries the provider, so its result cannot be the provider's
value; only without a real monitor does it compute
`now - last_active` in whole milliseconds (floor). -/
theorem c2_getidletime_stub (s : IMState) (now : Nat) :
    (s.use_real_monitor = true → s.has_real_monitor = true →
      GetIdletime s now = 0) ∧
    ((s.use_real_monitor && s.has_real_monitor) = false →
      GetIdletime s now = (now - s.last_active) / 1000) := by
  constructor
  · intro hu hr
    simp [GetIdletime, hu, hr]
  · intro h
    simp [GetIdletime, h]

/-- C2 witness: with the real monitor connected and a clock seven
seconds past `last_active`, the code still returns `0`. -/
theorem c2_getidletime_stub_witness :
    GetIdletime ⟨0, 1, [], true, true⟩ 7000000 = 0 :=
  (c2_getidletime_stub ⟨0, 1, [], true, true⟩ 7000000).1 rfl rfl

/-- No single method call emits `WatchFired`. -/
lemma imStep_fired_nil (s : IMState) (op : IMOp) : (imStep s op).2.2 = [] := by
  cases op <;> rfl

/-- No run of method calls ever emits `WatchFired`. -/
lemma imRun_fired_nil (ops : List IMOp) : ∀ s : IMState, (imRun s ops).2.2 = [] := by
  induction ops with
  | nil => intro s; rfl
  | cons op ops ih =>
      intro s
      simp [imRun, imStep_fired_nil, ih]

/-- C4: no method call and no run of method calls ever emits the
`WatchFired` signal, and the two watch-adding methods only record the
watch and advance the id counter — every other state component is left
as it was (there is no timer to arm in the state). -/
theorem c4_watchfired_never (s : IMState) (op : IMOp) (ops : List IMOp)
    (ivl : Nat) :
    (imStep s op).2.2 = [] ∧
    (imRun s ops).2.2 = [] ∧
    (imStep s (IMOp.addIdleWatch ivl)).1
      = { s with
            watch_id_counter := s.watch_id_counter + 1
            watches := dictInsert s.watch_id_counter (Watch.idle ivl) s.watches } ∧
    (imStep s IMOp.addUserActiveWatch).1
      = { s with
            watch_id_counter := s.watch_id_counter + 1
            watches := dictInsert s.watch_id_counter Watch.active s.watches } :=
  ⟨imStep_fired_nil s op, imRun_fired_nil ops s, rfl, rfl⟩

/-- C6: on a state whose watch registry is empty, `AddIdleWatch` returns
the current counter as the id; removing that id empties the registry
again; and a second `RemoveWatch` of the same id returns normally and
changes nothing at all. -/
theorem c6_round_trip (s : IMState) (ivl : Nat) (h : s.watches = []) :
    (imStep s (IMOp.addIdleWatch ivl)).2.1 = IMRet.watchId s.watch_id_counter ∧
    (imStep (imStep s (IMOp.addIdleWatch ivl)).1
        (IMOp.removeWatch s.watch_id_counter)).1.watches = [] ∧
    imStep (imStep (imStep s (IMOp.addIdleWatch ivl)).1
        (IMOp.removeWatch s.watch_id_counter)).1
        (IMOp.removeWatch s.watch_id_counter)
      = ((imStep (imStep s (IMOp.addIdleWatch ivl)).1
            (IMOp.removeWatch s.watch_id_counter)).1, IMRet.unit, []) := by
  refine ⟨rfl, ?_, ?_⟩
  · simp [imStep, h, dictInsert, dictHasKey, dictRemove]
  · simp [imStep, h, dictInsert, dictHasKey, dictRemove]

/-- C6 witness: from the freshly constructed interface, adding a
5000 ms idle watch returns id `1`, removing id `1` empties the registry,
and a second removal of id `1` is a no-op. -/
theorem c6_round_trip_witness :
    (imStep (imInit 0) (IMOp.addIdleWatch 5000)).2.1 = IMRet.watchId 1 ∧
    (imStep (imStep (imInit 0) (IMOp.addIdleWatch 5000)).1
        (IMOp.removeWatch 1)).1.watches = [] ∧
    imStep (imStep (imStep (imInit 0) (IMOp.addIdleWatch 5000)).1
        (IMOp.removeWatch 1)).1 (IMOp.removeWatch 1)
      = ((imStep (imStep (imInit 0) (IMOp.addIdleWatch 5000)).1
            (IMOp.removeWatch 1)).1, IMRet.unit, []) :=
  c6_round_trip (imInit 0) 5000 rfl

/-- C10: `GetIdletime` leaves the whole state untouched;
`ResetIdletime` touches only `last_active` (setting it to the current
clock); the three watch methods leave `last_active` untouched; and with
a fixed `last_active` the idle time `GetIdletime` reports is
non-decreasing in the clock. -/
theorem c10_state_isolation (s : IMState) (now t1 t2 ivl id : Nat) :
    (imStep s (IMOp.getIdletime now)).1 = s ∧
    (imStep s (IMOp.resetIdletime now)).1.watches = s.watches ∧
    (imStep s (IMOp.resetIdletime now)).1.watch_id_counter = s.watch_id_counter ∧
    (imStep s (IMOp.resetIdletime now)).1.last_active = now ∧
    (imStep s (IMOp.addIdleWatch ivl)).1.last_active = s.last_active ∧
    (imStep s IMOp.addUserActiveWatch).1.last_active = s.last_active ∧
    (imStep s (IMOp.removeWatch id)).1.last_active = s.last_active ∧
    (t1 ≤ t2 → GetIdletime s t1 ≤ GetIdletime s t2) := by
  refine ⟨rfl, rfl, rfl, rfl, rfl, rfl, rfl, ?_⟩
  intro h
  unfold GetIdletime
  split
  · exact le_refl 0
  · exact Nat.div_le_div_right (Nat.sub_le_sub_right h _)

/-- C10 witness: on the fresh interface observed at two later clock
readings, the reported idle time does not decrease. -/
theorem c10_state_isolation_witness :
    GetIdletime (imInit 0) 3000000 ≤ GetIdletime (imInit 0) 7000000 :=
  (c10_state_isolation (imInit 0) 0 3000000 7000000 0 0).2.2.2.2.2.2.2
    (by decide)

/-- Across any run, the counter never decreases, every returned watch id
lies between the starting counter (inclusive) and the final counter
(exclusive), and the returned ids are strictly increasing in call
order. -/
lemma imRun_ids_bounds (ops : List IMOp) :
    ∀ s : IMState,
      s.watch_id_counter ≤ (imRun s ops).1.watch_id_counter ∧
      (∀ i ∈ (imRun s ops).2.1,
        s.watch_id_counter ≤ i ∧ i < (imRun s ops).1.watch_id_counter) ∧
      List.Pairwise (· < ·) (imRun s ops).2.1 := by
  induction ops with
  | nil =>
      intro s
      exact ⟨le_refl _, by simp [imRun], by simp [imRun]⟩
  | cons op ops ih =>
      intro s
      cases op with
      | getIdletime now =>
          have h := ih s
          simpa [imRun, imStep] using h
      | resetIdletime now =>
          have h := ih { s with last_active := now }
          simpa [imRun, imStep] using h
      | removeWatch id =>
          have h := ih { s with
            watches :=
              if dictHasKey id s.watches then dictRemove id s.watches
              else s.watches }
          simpa [imRun, imStep] using h
      | addIdleWatch ivl =>
          have h := ih { s with
            watch_id_counter := s.watch_id_counter + 1
            watches := dictInsert s.watch_id_counter (Watch.idle ivl) s.watches }
          simp only [imRun, imStep] at h ⊢
          refine ⟨le_trans (Nat.le_succ _) h.1, ?_, ?_⟩
          · intro i hi
            rcases List.mem_cons.mp hi with hi | hi
            · subst hi
              exact ⟨le_refl _, lt_of_lt_of_le (Nat.lt_succ_self _) h.1⟩
            · rcases h.2.1 i hi with ⟨h1, h2⟩
              exact ⟨le_trans (Nat.le_succ _) h1, h2⟩
          · refine List.Pairwise.cons ?_ h.2.2
            intro i hi
            exact lt_of_lt_of_le (Nat.lt_succ_self _) (h.2.1 i hi).1
      | addUserActiveWatch =>
          have h := ih { s with
            watch_id_counter := s.watch_id_counter + 1
            watches := dictInsert s.watch_id_counter Watch.active s.watches }
          simp only [imRun, imStep] at h ⊢
          refine ⟨le_trans (Nat.le_succ _) h.1, ?_, ?_⟩
          · intro i hi
            rcases List.mem_cons.mp hi with hi | hi
            · subst hi
              exact ⟨le_refl _, lt_of_lt_of_le (Nat.lt_succ_self _) h.1⟩
            · rcases h.2.1 i hi with ⟨h1, h2⟩
              exact ⟨le_trans (Nat.le_succ _) h1, h2⟩
          · refine List.Pairwise.cons ?_ h.2.2
            intro i hi
            exact lt_of_lt_of_le (Nat.lt_succ_self _) (h.2.1 i hi).1

/-- C5: for every sequence of calls starting from the freshly
constructed interface, the watch ids the add methods return are
strictly increasing in call order (hence unique and never reused, even
after removals) and every one of them is at least `1`. -/
theorem c5_watch_ids_monotone (t0 : Nat) (ops : List IMOp) :
    List.Pairwise (· < ·) (imRun (imInit t0) ops).2.1 ∧
    ∀ i ∈ (imRun (imInit t0) ops).2.1, 1 ≤ i := by
  have h := imRun_ids_bounds ops (imInit t0)
  exact ⟨h.2.2, fun i hi => (h.2.1 i hi).1⟩

/-- The full-capture loop succeeds exactly when some retained backend
succeeds. -/
lemma capture_full_sync_result (fn : String) (ic : Bool) :
    ∀ bs : List ToolB,
      (capture_full_sync fn ic bs).1 = bs.any fun b => b.captureFull fn ic := by
  intro bs
  induction bs with
  | nil => rfl
  | cons b rest ih =>
      by_cases hb : b.captureFull fn ic = true
      · simp [capture_full_sync, hb]
      · simp [capture_full_sync, hb, ih]

/-- The full-capture loop invokes exactly the failing head of the list
followed by the first succeeding backend, if any — never a backend past
the first success. -/
lemma capture_full_sync_trace (fn : String) (ic : Bool) :
    ∀ bs : List ToolB,
      (capture_full_sync fn ic bs).2
        = (bs.take
            ((bs.takeWhile fun b => !(b.captureFull fn ic)).length + 1)).map
            ToolB.name := by
  intro bs
  induction bs with
  | nil => rfl
  | cons b rest ih =>
      by_cases hb : b.captureFull fn ic = true
      · simp [capture_full_sync, hb, List.takeWhile_cons]
      · simp [capture_full_sync, hb, ih, List.takeWhile_cons]

/-- Area-capture analogue of `capture_full_sync_result`. -/
lemma capture_area_sync_result (fn : String) (x y w h : Int) :
    ∀ bs : List ToolB,
      (capture_area_sync fn x y w h bs).1
        = bs.any fun b => b.captureArea fn x y w h := by
  intro bs
  induction bs with
  | nil => rfl
  | cons b rest ih =>
      by_cases hb : b.captureArea fn x y w h = true
      · simp [capture_area_sync, hb]
      · simp [capture_area_sync, hb, ih]

/-- Area-capture analogue of `capture_full_sync_trace`. -/
lemma capture_area_sync_trace (fn : String) (x y w h : Int) :
    ∀ bs : List ToolB,
      (capture_area_sync fn x y w h bs).2
        = (bs.take
            ((bs.takeWhile fun b => !(b.captureArea fn x y w h)).length + 1)).map
            ToolB.name := by
  intro bs
  induction bs with
  | nil => rfl
  | cons b rest ih =>
      by_cases hb : b.captureArea fn x y w h = true
      · simp [capture_area_sync, hb, List.takeWhile_cons]
      · simp [capture_area_sync, hb, ih, List.takeWhile_cons]

/-- C3: on an empty retained list both capture loops report failure
with an empty invocation trace (no process spawned); in general the
overall result is success exactly when some retained backend succeeds,
and the invocation trace is the failing head of the priority order plus
at most the first succeeding backend — backends past the first success
are never invoked, and when every backend fails all of them are tried
and the result is failure. -/
theorem c3_selector_order (bs : List ToolB) (fn : String) (ic : Bool)
    (x y w h : Int) :
    capture_full_sync fn ic [] = (false, []) ∧
    capture_area_sync fn x y w h [] = (false, []) ∧
    (capture_full_sync fn ic bs).1 = (bs.any fun b => b.captureFull fn ic) ∧
    (capture_full_sync fn ic bs).2
      = (bs.take
          ((bs.takeWhile fun b => !(b.captureFull fn ic)).length + 1)).map
          ToolB.name ∧
    (capture_area_sync fn x y w h bs).1
      = (bs.any fun b => b.captureArea fn x y w h) ∧
    (capture_area_sync fn x y w h bs).2
      = (bs.take
          ((bs.takeWhile fun b => !(b.captureArea fn x y w h)).length + 1)).map
          ToolB.name :=
  ⟨rfl, rfl, capture_full_sync_result fn ic bs, capture_full_sync_trace fn ic bs,
    capture_area_sync_result fn x y w h bs, capture_area_sync_trace fn x y w h bs⟩
